import Mathlib

/-!
Shallow embedding of the Selextract Cloud scraping-worker core
(`worker/proxies.py`, `worker/task_schemas.py`, `worker/tasks.py`),
with theorems settling the specification claims about proxy pool
management, task validation, data extraction, pagination and the
retry/billing orchestration.

Python dictionaries are modelled as association lists with unique keys,
Python `datetime` bookkeeping fields (`last_used`, `last_checked`,
`response_time`) that never influence control flow are omitted, and
Python exceptions are modelled with `Except`.
-/

namespace Selextract

/-- Extracted value for one field: Python `None`, a string, or a list of
strings (the `multiple` case) as produced by `DataExtractor`. -/
inductive Value where
  | vnone : Value
  | vstr : String → Value
  | vlist : List String → Value
deriving Repr, DecidableEq

/-- One page's extracted data: the dictionary built by `extract_fields`. -/
abbrev PageData := List (String × Value)

/- ===================== Proxy pool (worker/proxies.py) ===================== -/

/-- `ProxyEndpoint` dataclass from `worker/proxies.py` (the `datetime`
bookkeeping fields are omitted; they never influence control flow). -/
structure ProxyEndpoint where
  host : String
  port : Nat
  username : String
  password : String
  country : Option String := none
  city : Option String := none
  is_healthy : Bool := true
  failure_count : Nat := 0
deriving Repr, DecidableEq

/-- The dictionary key `f"{proxy.host}:{proxy.port}"` used by the pool. -/
def proxy_key (p : ProxyEndpoint) : String :=
  p.host ++ ":" ++ toString p.port

/-- Lookup in the `proxies` dictionary (`self.proxies[proxy_id]`). -/
def dict_find (d : List (String × ProxyEndpoint)) (k : String) : Option ProxyEndpoint :=
  match d.find? (fun kv => kv.1 = k) with
  | some kv => some kv.2
  | none => none

/-- Membership test `proxy_id in self.proxies`. -/
def dict_contains (d : List (String × ProxyEndpoint)) (k : String) : Bool :=
  d.any (fun kv => kv.1 = k)

/-- In-place mutation of one dictionary entry (`self.proxies[pid].f = v`). -/
def dict_update (d : List (String × ProxyEndpoint)) (k : String)
    (f : ProxyEndpoint → ProxyEndpoint) : List (String × ProxyEndpoint) :=
  d.map (fun kv => if kv.1 = k then (kv.1, f kv.2) else kv)

/-- Mutable state of `ProxyManager`: the proxy dictionary, the ordered
healthy-id list, the round-robin index, the sticky `_last_proxy`
attribute, and the statistics counters. -/
structure ProxyManager where
  proxies : List (String × ProxyEndpoint)
  healthy_proxies : List String
  current_proxy_index : Nat
  last_proxy : Option String := none
  total_requests : Nat := 0
  failed_requests : Nat := 0
  proxy_switches : Nat := 0
deriving Repr, DecidableEq

/-- Python `str.upper()` (character-wise uppercasing). -/
def py_upper (s : String) : String :=
  String.mk (s.data.map Char.toUpper)

/-- The country filter inside `get_proxy`: healthy ids whose proxy has
`country == country.upper()`.  (Live states keep every healthy id in the
dictionary; a missing id is treated as a non-match.) -/
def country_filter (st : ProxyManager) (c : String) : List String :=
  st.healthy_proxies.filter (fun pid =>
    match dict_find st.proxies pid with
    | some p => p.country = some (py_upper c)
    | none => false)

/-- `available_proxies` as computed by `get_proxy`: when a country is
given, the country subset, except that an empty subset falls back to the
whole healthy list (`if country_proxies:` in the source). -/
def available_proxies (st : ProxyManager) (country : Option String) : List String :=
  match country with
  | none => st.healthy_proxies
  | some c =>
      let cp := country_filter st c
      if cp.isEmpty then st.healthy_proxies else cp

/-- The sticky test `hasattr(self, '_last_proxy') and self._last_proxy in available_proxies`. -/
def sticky_ok (last : Option String) (available : List String) : Bool :=
  match last with
  | some l => available.contains l
  | none => false

/-- The round-robin selection
`available_proxies[self.current_proxy_index % len(available_proxies)]`. -/
def chosen_pid (st : ProxyManager) (country : Option String) : String :=
  (available_proxies st country).getD
    (st.current_proxy_index % (available_proxies st country).length) ""

/-- `ProxyManager.get_proxy(country, sticky_session)`: returns the chosen
endpoint (or `none`) together with the updated manager state. -/
def get_proxy (st : ProxyManager) (country : Option String) (sticky_session : Bool) :
    Option ProxyEndpoint × ProxyManager :=
  if st.healthy_proxies.isEmpty then (none, st)
  else if (available_proxies st country).isEmpty then (none, st)
  else if sticky_session && sticky_ok st.last_proxy (available_proxies st country) then
    (st.last_proxy.bind (fun l => dict_find st.proxies l), st)
  else
    (dict_find st.proxies (chosen_pid st country),
     { st with current_proxy_index := st.current_proxy_index + 1,
               last_proxy := some (chosen_pid st country) })

/-- `ProxyManager.mark_proxy_failed(proxy)`. -/
def mark_proxy_failed (st : ProxyManager) (p : ProxyEndpoint) : ProxyManager :=
  let pid := proxy_key p
  let st1 :=
    if dict_contains st.proxies pid then
      let upd := fun (q : ProxyEndpoint) => { q with failure_count := q.failure_count + 1, is_healthy := false }
      let stU := { st with proxies := dict_update st.proxies pid upd }
      if stU.healthy_proxies.contains pid then
        { stU with healthy_proxies := stU.healthy_proxies.erase pid,
                   proxy_switches := stU.proxy_switches + 1 }
      else stU
    else st
  { st1 with failed_requests := st1.failed_requests + 1 }

/-- `ProxyManager.mark_proxy_success(proxy)`. -/
def mark_proxy_success (st : ProxyManager) (p : ProxyEndpoint) : ProxyManager :=
  let pid := proxy_key p
  let st1 :=
    if dict_contains st.proxies pid then
      let upd := fun (q : ProxyEndpoint) => { q with failure_count := 0, is_healthy := true }
      let stU := { st with proxies := dict_update st.proxies pid upd }
      if stU.healthy_proxies.contains pid then stU
      else { stU with healthy_proxies := stU.healthy_proxies ++ [pid] }
    else st
  { st1 with total_requests := st1.total_requests + 1 }

/- ================ Task schemas (worker/task_schemas.py) ================ -/

/-- `FieldType` enum.  (`attribute` is a Lean keyword, so the constructor
for the source's `ATTRIBUTE = "attribute"` member is named `attr`.) -/
inductive FieldType where
  | text : FieldType
  | attr : FieldType
  | link : FieldType
  | image : FieldType
deriving Repr, DecidableEq

/-- `FieldConfig` model (field `attribute` is named `attr`, see `FieldType`). -/
structure FieldConfig where
  name : String
  type : FieldType
  selector : String
  attr : Option String := none
  multiple : Bool := false
  required : Bool := true
  default_value : Option String := none
deriving Repr, DecidableEq

/-- Python truthiness of an `Optional[str]`: `not v` holds for `None` and `""`. -/
def falsy (v : Option String) : Bool :=
  match v with
  | none => true
  | some s => s = ""

/-- `FieldConfig.validate_attribute`: defaults `href`/`src` for
link/image fields with a falsy attribute and rejects attribute-typed
fields without one; any other value passes through. -/
def validate_attribute (ty : FieldType) (v : Option String) : Except String (Option String) :=
  if (ty == FieldType.attr || ty == FieldType.link || ty == FieldType.image) && falsy v then
    match ty with
    | FieldType.link => Except.ok (some "href")
    | FieldType.image => Except.ok (some "src")
    | _ => Except.error "attribute is required for this field type"
  else Except.ok v

/-- Raw input for one `FieldConfig`: `none` in an `Option (Option _)` /
`Option Bool` position means the key is absent from the input dictionary
(pydantic then applies the declared default and, crucially, skips the
field's validator, which lacks `always=True`). -/
structure FieldInput where
  name : String
  type : FieldType
  selector : String
  attr : Option (Option String) := none
  multiple : Option Bool := none
  required : Option Bool := none
  default_value : Option (Option String) := none
deriving Repr, DecidableEq

/-- Pydantic construction of a `FieldConfig` from raw input: length
constraints on `name`/`selector`, then the `attribute` validator — run
only when the key was supplied. -/
def mk_field_config (inp : FieldInput) : Except String FieldConfig :=
  if inp.name.length < 1 || 100 < inp.name.length then Except.error "name length out of range"
  else if inp.selector.length < 1 then Except.error "selector must be non-empty"
  else
    let va : Except String (Option String) :=
      match inp.attr with
      | none => Except.ok none
      | some v => validate_attribute inp.type v
    match va with
    | Except.error e => Except.error e
    | Except.ok a =>
        Except.ok { name := inp.name, type := inp.type, selector := inp.selector, attr := a,
                    multiple := inp.multiple.getD false, required := inp.required.getD true,
                    default_value := inp.default_value.getD none }

/-- `PaginationConfig` model. -/
structure PaginationConfig where
  enabled : Bool := false
  next_selector : Option String := none
  max_pages : Nat := 10
  wait_after_click : Nat := 2000
  stop_condition : Option String := none
deriving Repr, DecidableEq

/-- `PaginationConfig.validate_next_selector`: rejects a falsy
`next_selector` when pagination is enabled. -/
def validate_next_selector (enabled : Bool) (v : Option String) : Except String (Option String) :=
  if enabled && falsy v then Except.error "next_selector is required when pagination is enabled"
  else Except.ok v

/-- Raw input for a `PaginationConfig`; `none` means the key is absent. -/
structure PaginationInput where
  enabled : Option Bool := none
  next_selector : Option (Option String) := none
  max_pages : Option Nat := none
  wait_after_click : Option Nat := none
  stop_condition : Option (Option String) := none
deriving Repr, DecidableEq

/-- Pydantic construction of a `PaginationConfig` from raw input: range
constraints, then the `next_selector` validator — run only when the key
was supplied (no `always=True` on the validator). -/
def mk_pagination_config (inp : PaginationInput) : Except String PaginationConfig :=
  let enabled := inp.enabled.getD false
  let mp := inp.max_pages.getD 10
  let wac := inp.wait_after_click.getD 2000
  if mp < 1 || 100 < mp then Except.error "max_pages out of range"
  else if wac < 500 || 10000 < wac then Except.error "wait_after_click out of range"
  else
    let vn : Except String (Option String) :=
      match inp.next_selector with
      | none => Except.ok none
      | some v => validate_next_selector enabled v
    match vn with
    | Except.error e => Except.error e
    | Except.ok ns =>
        Except.ok { enabled := enabled, next_selector := ns, max_pages := mp,
                    wait_after_click := wac, stop_condition := inp.stop_condition.getD none }

/-- `TaskConfig.validate_fields`: field names must be unique
(`len(field_names) != len(set(field_names))` rejects). -/
def validate_fields (v : List FieldConfig) : Except String (List FieldConfig) :=
  let names := v.map FieldConfig.name
  if names.length ≠ names.dedup.length then Except.error "Field names must be unique"
  else Except.ok v

/-- Construct every field of a task configuration in order, propagating
the first validation error. -/
def mk_fields : List FieldInput → Except String (List FieldConfig)
  | [] => Except.ok []
  | i :: rest =>
      match mk_field_config i with
      | Except.error e => Except.error e
      | Except.ok f =>
          match mk_fields rest with
          | Except.error e => Except.error e
          | Except.ok fs => Except.ok (f :: fs)

/-- The fields part of `TaskConfig` validation: per-field construction
followed by the uniqueness validator. -/
def validated_fields (inps : List FieldInput) : Except String (List FieldConfig) :=
  match mk_fields inps with
  | Except.error e => Except.error e
  | Except.ok fs => validate_fields fs

/- ================= Data extraction (worker/tasks.py) ================= -/

/-- Abstract DOM element handle. -/
structure Element where
  idx : Nat
deriving Repr, DecidableEq

/-- Oracle for one loaded page: Playwright query and value primitives,
each of which may raise (modelled with `Except`). -/
structure Page where
  query : String → Except String (Option Element)
  query_all : String → Except String (List Element)
  inner_text : Element → Except String String
  get_attr : Element → String → Except String (Option String)
  abs_url : String → Except String String

/-- `DataExtractor._extract_element_value`: type-directed extraction; any
exception is caught locally and yields `None`.  For link/image fields
`field.attribute or 'href'/'src'` resolves a falsy attribute to the
default, and a truthy URL is made absolute via the page. -/
def extract_element_value (pg : Page) (el : Element) (f : FieldConfig) : Option String :=
  let r : Except String (Option String) :=
    match f.type with
    | FieldType.text => (pg.inner_text el).map some
    | FieldType.attr =>
        match f.attr with
        | some a => pg.get_attr el a
        | none => Except.error "get_attribute(None)"
    | FieldType.link =>
        let a := if falsy f.attr then "href" else f.attr.getD "href"
        (pg.get_attr el a).bind (fun href =>
          match href with
          | some h => if h = "" then Except.ok (some h) else (pg.abs_url h).map some
          | none => Except.ok none)
    | FieldType.image =>
        let a := if falsy f.attr then "src" else f.attr.getD "src"
        (pg.get_attr el a).bind (fun src =>
          match src with
          | some h => if h = "" then Except.ok (some h) else (pg.abs_url h).map some
          | none => Except.ok none)
  match r with
  | Except.ok v => v
  | Except.error _ => none

/-- `DataExtractor._extract_single_field`: `multiple` collects the truthy
values over all matches; otherwise the first match is extracted, a
missing match falls back to `default_value`; any raised error is caught
and yields `default_value`. -/
def extract_single_field (pg : Page) (f : FieldConfig) : Value :=
  let dflt : Value :=
    match f.default_value with
    | some s => Value.vstr s
    | none => Value.vnone
  if f.multiple then
    match pg.query_all f.selector with
    | Except.error _ => dflt
    | Except.ok els =>
        Value.vlist ((els.map (fun el => extract_element_value pg el f)).filterMap
          (fun v => match v with
            | some s => if s = "" then none else some s
            | none => none))
  else
    match pg.query f.selector with
    | Except.error _ => dflt
    | Except.ok (some el) =>
        match extract_element_value pg el f with
        | some s => Value.vstr s
        | none => Value.vnone
    | Except.ok none => dflt

/-- The fallback value `extract_fields` reports for a field whose
single-match lookup found nothing: the configured default, `None` if unset. -/
def opt_to_value (o : Option String) : Value :=
  match o with
  | some s => Value.vstr s
  | none => Value.vnone

/-- Python dictionary assignment `d[k] = v`: overwrite in place, else append. -/
def dict_insert (d : List (String × Value)) (k : String) (v : Value) : List (String × Value) :=
  if d.any (fun kv => kv.1 = k) then d.map (fun kv => if kv.1 = k then (kv.1, v) else kv)
  else d ++ [(k, v)]

/-- `DataExtractor.extract_fields`: builds the per-page dictionary, one
entry per configured field, in declaration order.  (The `try/except` in
the source's loop body is unreachable: `_extract_single_field` catches
every exception itself.) -/
def extract_fields (pg : Page) (fields : List FieldConfig) : List (String × Value) :=
  fields.foldl (fun acc f => dict_insert acc f.name (extract_single_field pg f)) []

/-- Lookup in an extraction dictionary. -/
def lookup_value (d : List (String × Value)) (k : String) : Option Value :=
  match d.find? (fun kv => kv.1 = k) with
  | some kv => some kv.2
  | none => none

/- =============== Pagination runtime (worker/tasks.py) =============== -/

/-- Observable behaviour of the page currently loaded when the
pagination handler inspects it: selector matching, the next element's
disabled/visible state, whether clicking through to the next page
succeeds, and the data `extract_fields` produces on this page. -/
structure PageView where
  find : String → Bool
  disabled : String → Bool
  visible : String → Bool
  nav_ok : Bool
  page_data : PageData

/-- Python truthiness of an `Optional[str]` selector (`if self.config.next_selector:`). -/
def opt_truthy (o : Option String) : Bool :=
  match o with
  | some s => !(s = "")
  | none => false

/-- `PaginationHandler.has_next_page` on the current page `pv` with page
counter `current_page`: disabled pagination, a reached page cap, or a
matching stop-condition selector report no next page; otherwise the next
selector must resolve to a non-disabled, visible element. -/
def has_next_page (cfg : PaginationConfig) (current_page : Nat) (pv : PageView) : Bool :=
  if !cfg.enabled then false
  else if decide (cfg.max_pages ≤ current_page) then false
  else if opt_truthy cfg.stop_condition && pv.find (cfg.stop_condition.getD "") then false
  else if opt_truthy cfg.next_selector && pv.find (cfg.next_selector.getD "") then
    !pv.disabled (cfg.next_selector.getD "") && pv.visible (cfg.next_selector.getD "")
  else false

/-- `PaginationHandler.go_to_next_page`: re-checks `has_next_page`,
re-resolves the next element, then clicking/settling succeeds or fails
(failures, exceptions included, return `False`; the page counter is
advanced by the caller's recursion only on success). -/
def go_to_next_page (cfg : PaginationConfig) (current_page : Nat) (pv : PageView) : Bool :=
  if !has_next_page cfg current_page pv then false
  else if !pv.find (cfg.next_selector.getD "") then false
  else pv.nav_ok

theorem has_next_page_lt (cfg : PaginationConfig) (current_page : Nat) (pv : PageView)
    (h : has_next_page cfg current_page pv = true) : current_page < cfg.max_pages := by
  by_contra hle
  simp [has_next_page, Nat.le_of_not_lt hle] at h

/-- The page loop of `ScrapingWorker._execute_scraping` from page counter
`current_page` on, over page environment `env` (the view of the page
loaded when the counter reads `n`): extract the current page's data,
stop unless `has_next_page` and `go_to_next_page` both succeed. -/
def scrape_loop (cfg : PaginationConfig) (env : Nat → PageView) (current_page : Nat) :
    List PageData :=
  if h : has_next_page cfg current_page (env current_page) = true then
    if go_to_next_page cfg current_page (env current_page) then
      (env current_page).page_data :: scrape_loop cfg env (current_page + 1)
    else [(env current_page).page_data]
  else [(env current_page).page_data]
termination_by cfg.max_pages - current_page
decreasing_by
  have := has_next_page_lt cfg current_page (env current_page) h
  omega

/-- One attempt's page scraping, page counter starting at 1. -/
def scrape_pages (cfg : PaginationConfig) (env : Nat → PageView) : List PageData :=
  scrape_loop cfg env 1

/- ============ Retry and billing orchestration (worker/tasks.py) ============ -/

/-- `ScrapingError`: message, error type tag, retryable flag. -/
structure ScrapingErr where
  message : String
  error_type : String := "general"
  retryable : Bool := true
deriving Repr, DecidableEq

/-- Outcome of one call to `_execute_scraping`: the pages it appended to
`result.data` before finishing, and the `ScrapingError` it raised, if any. -/
structure AttemptResult where
  pages : List PageData
  error : Option ScrapingErr
deriving Repr, DecidableEq

/-- The parts of the mutable `TaskResult` / pool-manager state the retry
loop touches: accumulated data and warnings, and how often the current
proxy was reported failed / successful. -/
structure RetryState where
  data : List PageData := []
  warnings : List String := []
  failed_reports : Nat := 0
  success_reports : Nat := 0
deriving Repr, DecidableEq

/-- `ScrapingWorker._execute_scraping_with_retries`: attempt `retry_count`
runs; success reports the proxy successful and returns; a failure bumps
the retry count, re-raises when non-retryable or out of retries, records
a retry warning, and reports the proxy failed only for
`proxy_failure`-type errors.  `fuel` counts the remaining loop
iterations (`max_retries + 1` at entry); exhaustion is the source's
final unreachable `max_retries_exceeded` raise.  Errors carry the
accumulated state, since `result` is mutated in place. -/
def retry_loop (attempts : Nat → AttemptResult) (max_retries : Nat) (retry_count : Nat)
    (acc : RetryState) (fuel : Nat) : Except (ScrapingErr × RetryState) RetryState :=
  match fuel with
  | 0 =>
      Except.error
        ({ message := "Scraping failed after " ++ toString max_retries ++ " retries",
           error_type := "max_retries_exceeded" }, acc)
  | fuel' + 1 =>
      let a := attempts retry_count
      let acc1 := { acc with data := acc.data ++ a.pages }
      match a.error with
      | none => Except.ok { acc1 with success_reports := acc1.success_reports + 1 }
      | some e =>
          let rc := retry_count + 1
          if !e.retryable || decide (max_retries < rc) then Except.error (e, acc1)
          else
            let acc2 := { acc1 with warnings := acc1.warnings ++ ["Retry " ++ toString rc ++ ": " ++ e.message] }
            let acc3 :=
              if e.error_type = "proxy_failure" then
                { acc2 with failed_reports := acc2.failed_reports + 1 }
              else acc2
            retry_loop attempts max_retries rc acc3 fuel'

/-- The whole retry phase, started the way `execute_task` starts it. -/
def retry_run (attempts : Nat → AttemptResult) (max_retries : Nat) :
    Except (ScrapingErr × RetryState) RetryState :=
  retry_loop attempts max_retries 0 {} (max_retries + 1)

/-- How often the retry phase reported the current proxy failed. -/
def retry_failed_reports (attempts : Nat → AttemptResult) (max_retries : Nat) : Nat :=
  match retry_run attempts max_retries with
  | Except.ok acc => acc.failed_reports
  | Except.error (_, acc) => acc.failed_reports

/-- How often the retry phase reported the current proxy successful. -/
def retry_success_reports (attempts : Nat → AttemptResult) (max_retries : Nat) : Nat :=
  match retry_run attempts max_retries with
  | Except.ok acc => acc.success_reports
  | Except.error (_, acc) => acc.success_reports

/-- Compute-unit formula of `execute_task`:
`max(execution_time / 60, 0.1)` (1 CU = 1 minute, floor 0.1). -/
def compute_units (execution_time : ℚ) : ℚ :=
  max (execution_time / 60) (1 / 10)

/-- The fields of `TaskResult` the orchestration claims are about. -/
structure TaskResultM where
  status : String
  data : List PageData
  total_records : Nat
  compute_units_used : ℚ
  errors : List String
  warnings : List String
deriving Repr, DecidableEq

/-- `ScrapingWorker.execute_task` after browser initialization, as a
function of the attempt behaviour and the elapsed wall time in seconds:
run the retry phase; on an escaped exception the result is `failed` with
that error appended (compute units never set, hence 0); otherwise bill
`max(elapsed/60, 0.1)` and report `completed` with the record count when
any data was extracted, else `failed` with a `"No data extracted"` error. -/
def execute_task_core (attempts : Nat → AttemptResult) (max_retries : Nat) (elapsed : ℚ) :
    TaskResultM :=
  match retry_run attempts max_retries with
  | Except.error (e, acc) =>
      { status := "failed", data := acc.data, total_records := 0,
        compute_units_used := 0, errors := [e.message], warnings := acc.warnings }
  | Except.ok acc =>
      let cu := compute_units elapsed
      if acc.data.isEmpty then
        { status := "failed", data := acc.data, total_records := 0,
          compute_units_used := cu, errors := ["No data extracted"], warnings := acc.warnings }
      else
        { status := "completed", data := acc.data, total_records := acc.data.length,
          compute_units_used := cu, errors := [], warnings := acc.warnings }

/- ========================= Supporting lemmas ========================= -/

theorem dict_update_keys (d : List (String × ProxyEndpoint)) (k : String)
    (f : ProxyEndpoint → ProxyEndpoint) :
    (dict_update d k f).map Prod.fst = d.map Prod.fst := by
  simp only [dict_update, List.map_map]
  refine List.map_congr_left (fun kv _ => ?_)
  by_cases h : kv.1 = k <;> simp [h]

theorem dict_contains_update (d : List (String × ProxyEndpoint)) (k k' : String)
    (f : ProxyEndpoint → ProxyEndpoint) :
    dict_contains (dict_update d k f) k' = dict_contains d k' := by
  induction d with
  | nil => rfl
  | cons kv rest ih =>
      simp only [dict_contains, dict_update, List.map_cons, List.any_cons] at ih ⊢
      by_cases h : kv.1 = k <;> simp [h, ih]

theorem dict_find_update_self (d : List (String × ProxyEndpoint)) (k : String)
    (f : ProxyEndpoint → ProxyEndpoint) :
    dict_find (dict_update d k f) k = (dict_find d k).map f := by
  induction d with
  | nil => rfl
  | cons kv rest ih =>
      by_cases h : kv.1 = k
      · simp [dict_find, dict_update, h]
      · simp only [dict_find, dict_update, List.map_cons, List.find?_cons] at ih ⊢
        rw [if_neg h]
        simp only [decide_eq_false h]
        exact ih

theorem dict_find_mem (d : List (String × ProxyEndpoint)) (k : String) (q : ProxyEndpoint)
    (h : dict_find d k = some q) : (k, q) ∈ d := by
  simp only [dict_find] at h
  cases hf : d.find? (fun kv => kv.1 = k) with
  | none => rw [hf] at h; exact absurd h (by simp)
  | some kv =>
      rw [hf] at h
      have hm := List.mem_of_find?_eq_some hf
      have hp := List.find?_some hf
      simp only [decide_eq_true_eq] at hp
      cases h
      cases kv
      cases hp
      exact hm

theorem dict_contains_find (d : List (String × ProxyEndpoint)) (k : String)
    (h : dict_contains d k = true) : ∃ q, dict_find d k = some q := by
  simp only [dict_contains, List.any_eq_true] at h
  have h2 : (d.find? (fun kv => kv.1 = k)).isSome := by
    rw [List.find?_isSome]
    obtain ⟨kv, hmem, hk⟩ := h
    exact ⟨kv, hmem, hk⟩
  cases hf : d.find? (fun kv => kv.1 = k) with
  | none => rw [hf] at h2; simp at h2
  | some kv => exact ⟨kv.2, by simp [dict_find, hf]⟩

theorem getD_mod_mem (l : List String) (i : Nat) (h : l.isEmpty = false) :
    l.getD (i % l.length) "" ∈ l := by
  have hlen : 0 < l.length := by
    cases l with
    | nil => simp at h
    | cons a rest => simp
  have hlt : i % l.length < l.length := Nat.mod_lt _ hlen
  rw [List.getD_eq_getElem?_getD, List.getElem?_eq_getElem hlt]
  exact List.getElem_mem hlt

theorem available_subset (st : ProxyManager) (c : Option String) (pid : String)
    (hp : pid ∈ available_proxies st c) : pid ∈ st.healthy_proxies := by
  cases c with
  | none => exact hp
  | some cc =>
      simp only [available_proxies] at hp
      split at hp
      · exact hp
      · exact List.mem_of_mem_filter hp

theorem get_proxy_some_src (st : ProxyManager) (c : Option String) (s : Bool)
    (q : ProxyEndpoint) (h : (get_proxy st c s).1 = some q) :
    ∃ pid, pid ∈ st.healthy_proxies ∧ dict_find st.proxies pid = some q := by
  by_cases h1 : st.healthy_proxies.isEmpty
  · rw [get_proxy, if_pos h1] at h
    exact absurd h (by simp)
  · by_cases h2 : (available_proxies st c).isEmpty
    · rw [get_proxy, if_neg h1, if_pos h2] at h
      exact absurd h (by simp)
    · by_cases h3 : (s && sticky_ok st.last_proxy (available_proxies st c)) = true
      · rw [get_proxy, if_neg h1, if_neg h2, if_pos h3] at h
        cases hl : st.last_proxy with
        | none => rw [hl] at h3; simp [sticky_ok] at h3
        | some l =>
            rw [hl] at h h3
            simp only [Option.bind_some] at h
            refine ⟨l, ?_, h⟩
            have hc : (available_proxies st c).contains l = true := by
              rcases Bool.and_eq_true_iff.mp h3 with ⟨_, hok⟩
              simpa [sticky_ok] using hok
            exact available_subset st c l (by simpa using hc)
      · rw [get_proxy, if_neg h1, if_neg h2, if_neg h3] at h
        refine ⟨chosen_pid st c, ?_, h⟩
        exact available_subset st c _ (getD_mod_mem _ _ (by simpa using h2))

theorem mark_proxy_failed_healthy (st : ProxyManager) (p : ProxyEndpoint)
    (hmem : dict_contains st.proxies (proxy_key p) = true) :
    (mark_proxy_failed st p).healthy_proxies =
      if st.healthy_proxies.contains (proxy_key p) then
        st.healthy_proxies.erase (proxy_key p)
      else st.healthy_proxies := by
  simp only [mark_proxy_failed, hmem, if_true]
  split <;> rfl

theorem mark_proxy_failed_proxies (st : ProxyManager) (p : ProxyEndpoint)
    (hmem : dict_contains st.proxies (proxy_key p) = true) :
    (mark_proxy_failed st p).proxies =
      dict_update st.proxies (proxy_key p)
        (fun q => { q with failure_count := q.failure_count + 1, is_healthy := false }) := by
  simp only [mark_proxy_failed, hmem, if_true]
  split <;> rfl

theorem mark_proxy_success_fields (st : ProxyManager) (p : ProxyEndpoint)
    (hmem : dict_contains st.proxies (proxy_key p) = true) :
    (mark_proxy_success st p).proxies =
      dict_update st.proxies (proxy_key p)
        (fun q => { q with failure_count := 0, is_healthy := true })
    ∧ (mark_proxy_success st p).healthy_proxies =
      (if st.healthy_proxies.contains (proxy_key p) then st.healthy_proxies
       else st.healthy_proxies ++ [proxy_key p]) := by
  simp only [mark_proxy_success, hmem, if_true]
  split <;> exact ⟨rfl, rfl⟩

theorem wf_dict_update (d : List (String × ProxyEndpoint)) (k : String)
    (f : ProxyEndpoint → ProxyEndpoint)
    (hwf : ∀ kv ∈ d, proxy_key kv.2 = kv.1)
    (hkey : ∀ q, proxy_key (f q) = proxy_key q) :
    ∀ kv ∈ dict_update d k f, proxy_key kv.2 = kv.1 := by
  intro kv hkv
  simp only [dict_update, List.mem_map] at hkv
  obtain ⟨kv0, hkv0, heq⟩ := hkv
  by_cases h : kv0.1 = k
  · rw [if_pos h] at heq
    subst heq
    simpa [hkey] using hwf kv0 hkv0
  · rw [if_neg h] at heq
    subst heq
    exact hwf kv0 hkv0

theorem get_proxy_sticky_hit (st : ProxyManager) (c : Option String) (l : String)
    (hl : st.last_proxy = some l)
    (hmem : l ∈ available_proxies st c)
    (hne : st.healthy_proxies.isEmpty = false) :
    (get_proxy st c true).1 = dict_find st.proxies l := by
  have h2 : ¬ ((available_proxies st c).isEmpty = true) := by
    cases hav : available_proxies st c with
    | nil => rw [hav] at hmem; simp at hmem
    | cons a rest => simp
  have h3 : (true && sticky_ok st.last_proxy (available_proxies st c)) = true := by
    simp [sticky_ok, hl, hmem]
  rw [get_proxy, if_neg (by simp [hne]), if_neg h2, if_pos h3, hl]
  rfl

/- ===================== Claim theorems and witnesses ===================== -/

/-- Claim C1: for a proxy `p` known to the pool (its key is in the proxy
dictionary, keys are well-formed, the healthy list is duplicate-free),
`mark_proxy_failed p` removes `p` from the healthy list regardless of its
prior failure count, so the very next `get_proxy` — any country and
stickiness arguments — cannot return `p`; and a subsequent
`mark_proxy_success p` resets `p`'s failure count to 0 and re-admits `p`
to the healthy list. -/
theorem proxy_single_strike_eviction (st : ProxyManager) (p : ProxyEndpoint)
    (hmem : dict_contains st.proxies (proxy_key p) = true)
    (hnd : st.healthy_proxies.Nodup)
    (hwf : ∀ kv ∈ st.proxies, proxy_key kv.2 = kv.1) :
    proxy_key p ∉ (mark_proxy_failed st p).healthy_proxies
    ∧ (∀ c s q, (get_proxy (mark_proxy_failed st p) c s).1 = some q →
        proxy_key q ≠ proxy_key p)
    ∧ (dict_find (mark_proxy_success (mark_proxy_failed st p) p).proxies
        (proxy_key p)).map ProxyEndpoint.failure_count = some 0
    ∧ proxy_key p ∈ (mark_proxy_success (mark_proxy_failed st p) p).healthy_proxies := by
  have hh := mark_proxy_failed_healthy st p hmem
  have hpx := mark_proxy_failed_proxies st p hmem
  have habs : proxy_key p ∉ (mark_proxy_failed st p).healthy_proxies := by
    rw [hh]
    split
    · intro hmem2
      exact ((List.Nodup.mem_erase_iff hnd).mp hmem2).1 rfl
    · next hcon => intro hmem2; exact hcon (by simpa using hmem2)
  have hmemf : dict_contains (mark_proxy_failed st p).proxies (proxy_key p) = true := by
    rw [hpx, dict_contains_update]; exact hmem
  have hwf1 : ∀ kv ∈ (mark_proxy_failed st p).proxies, proxy_key kv.2 = kv.1 := by
    rw [hpx]; exact wf_dict_update _ _ _ hwf (fun q => rfl)
  have hms := mark_proxy_success_fields (mark_proxy_failed st p) p hmemf
  refine ⟨habs, ?_, ?_, ?_⟩
  · intro c s q hq
    obtain ⟨pid, hpid, hfind⟩ := get_proxy_some_src _ c s q hq
    have hkey : proxy_key q = pid := hwf1 (pid, q) (dict_find_mem _ _ _ hfind)
    intro hcontra
    rw [hcontra] at hkey
    rw [← hkey] at hpid
    exact habs hpid
  · rw [hms.1, dict_find_update_self]
    obtain ⟨q0, hq0⟩ := dict_contains_find _ _ hmemf
    rw [hq0]
    rfl
  · rw [hms.2, if_neg (fun hcon => habs (by simpa using hcon))]
    exact List.mem_append_right _ (by simp)

/-- Witness for C1 at a one-proxy pool. -/
theorem proxy_single_strike_eviction_witness :
    proxy_key { host := "h9", port := 81, username := "u", password := "w" : ProxyEndpoint }
      ∉ (mark_proxy_failed
          { proxies := [("h9:81", { host := "h9", port := 81, username := "u", password := "w" })],
            healthy_proxies := ["h9:81"], current_proxy_index := 0 }
          { host := "h9", port := 81, username := "u", password := "w" }).healthy_proxies :=
  (proxy_single_strike_eviction
    { proxies := [("h9:81", { host := "h9", port := 81, username := "u", password := "w" })],
      healthy_proxies := ["h9:81"], current_proxy_index := 0 }
    { host := "h9", port := 81, username := "u", password := "w" }
    (by decide) (by decide) (by decide)).1

/-- Claim C9: two successive `get_proxy` calls with `sticky_session=true`
and the same country argument, with no intervening state change, return
the identical endpoint: the second call runs on the state the first call
returned. -/
theorem sticky_session_stable (st : ProxyManager) (c : Option String) (p : ProxyEndpoint)
    (h : (get_proxy st c true).1 = some p) :
    (get_proxy (get_proxy st c true).2 c true).1 = some p := by
  by_cases h1 : st.healthy_proxies.isEmpty
  · rw [get_proxy, if_pos h1] at h
    exact absurd h (by simp)
  · by_cases h2 : (available_proxies st c).isEmpty
    · rw [get_proxy, if_neg h1, if_pos h2] at h
      exact absurd h (by simp)
    · by_cases h3 : (true && sticky_ok st.last_proxy (available_proxies st c)) = true
      · have hst : (get_proxy st c true).2 = st := by
          rw [get_proxy, if_neg h1, if_neg h2, if_pos h3]
        rw [get_proxy, if_neg h1, if_neg h2, if_pos h3] at h
        rw [hst, get_proxy, if_neg h1, if_neg h2, if_pos h3]
        exact h
      · have hst : (get_proxy st c true).2 =
            { st with current_proxy_index := st.current_proxy_index + 1,
                      last_proxy := some (chosen_pid st c) } := by
          rw [get_proxy, if_neg h1, if_neg h2, if_neg h3]
        rw [get_proxy, if_neg h1, if_neg h2, if_neg h3] at h
        simp only at h
        have hmemA : chosen_pid st c ∈ available_proxies st c := by
          have hg := getD_mod_mem (available_proxies st c) st.current_proxy_index
            (by simpa using h2)
          simpa [chosen_pid] using hg
        have hlast : (get_proxy st c true).2.last_proxy = some (chosen_pid st c) := by
          rw [hst]
        have hmemA' : chosen_pid st c ∈ available_proxies (get_proxy st c true).2 c := by
          rw [hst]; exact hmemA
        have hne' : (get_proxy st c true).2.healthy_proxies.isEmpty = false := by
          rw [hst]; simpa using h1
        rw [get_proxy_sticky_hit ((get_proxy st c true).2) c (chosen_pid st c) hlast hmemA' hne',
            hst]
        exact h

/-- Witness for C9 at a one-proxy pool. -/
theorem sticky_session_stable_witness :
    (get_proxy (get_proxy
        { proxies := [("h9:81", { host := "h9", port := 81, username := "u", password := "w" })],
          healthy_proxies := ["h9:81"], current_proxy_index := 0 }
        none true).2 none true).1 =
      some { host := "h9", port := 81, username := "u", password := "w" } :=
  sticky_session_stable
    { proxies := [("h9:81", { host := "h9", port := 81, username := "u", password := "w" })],
      healthy_proxies := ["h9:81"], current_proxy_index := 0 }
    none { host := "h9", port := 81, username := "u", password := "w" } (by decide)

/-- A pool with a single healthy US proxy, used to exhibit the
country-filter fallback behaviour. -/
def pUS : ProxyEndpoint :=
  { host := "h1", port := 80, username := "u", password := "w", country := some "US" }

/-- Pool state holding only `pUS`, healthy. -/
def stateA : ProxyManager :=
  { proxies := [("h1:80", pUS)], healthy_proxies := ["h1:80"], current_proxy_index := 0 }

/-- Counterexample to claim C2 as stated: in `stateA` no healthy proxy
has country `GB`, yet `get_proxy(country="GB")` returns the US proxy
instead of `None` — the code falls back to the unfiltered healthy set
(`if country_proxies:` keeps `available_proxies` at the full healthy
list when the filtered subset is empty). -/
theorem get_proxy_country_counterexample :
    (∀ pid ∈ stateA.healthy_proxies,
        ¬ ((dict_find stateA.proxies pid).bind ProxyEndpoint.country = some (py_upper "GB")))
    ∧ (get_proxy stateA (some "GB") false).1 = some pUS := by
  decide

/-- Claim C2 amended: when the healthy set is non-empty (and its ids are
in the proxy dictionary) but the country-filtered subset is empty,
`get_proxy(country=c)` does not return `None`; it falls back to the
unfiltered healthy set and serves one of its proxies. -/
theorem get_proxy_country_fallback (st : ProxyManager) (c : String) (s : Bool)
    (hne : st.healthy_proxies.isEmpty = false)
    (hsub : ∀ pid ∈ st.healthy_proxies, dict_contains st.proxies pid = true)
    (hnc : country_filter st c = []) :
    ∃ pid q, pid ∈ st.healthy_proxies ∧ dict_find st.proxies pid = some q
      ∧ (get_proxy st (some c) s).1 = some q := by
  have hav : available_proxies st (some c) = st.healthy_proxies := by
    simp [available_proxies, hnc]
  have h1 : ¬ (st.healthy_proxies.isEmpty = true) := by simp [hne]
  have h2 : ¬ ((available_proxies st (some c)).isEmpty = true) := by simp [hav, hne]
  by_cases h3 : (s && sticky_ok st.last_proxy (available_proxies st (some c))) = true
  · cases hl : st.last_proxy with
    | none => rw [hl] at h3; simp [sticky_ok] at h3
    | some l =>
        have hlm : l ∈ st.healthy_proxies := by
          rcases Bool.and_eq_true_iff.mp h3 with ⟨_, hok⟩
          rw [hl] at hok
          simp only [sticky_ok] at hok
          rw [hav] at hok
          simpa using hok
        obtain ⟨q, hq⟩ := dict_contains_find _ _ (hsub l hlm)
        refine ⟨l, q, hlm, hq, ?_⟩
        rw [get_proxy, if_neg h1, if_neg h2, if_pos h3, hl]
        simpa using hq
  · have hpm : chosen_pid st (some c) ∈ st.healthy_proxies := by
      have hg := getD_mod_mem (available_proxies st (some c)) st.current_proxy_index
        (by simpa using h2)
      rw [← hav]
      simpa [chosen_pid] using hg
    obtain ⟨q, hq⟩ := dict_contains_find _ _ (hsub _ hpm)
    refine ⟨chosen_pid st (some c), q, hpm, hq, ?_⟩
    rw [get_proxy, if_neg h1, if_neg h2, if_neg h3]
    simpa using hq

/-- Witness for the amended C2 at `stateA`. -/
theorem get_proxy_country_fallback_witness :
    ∃ pid q, pid ∈ stateA.healthy_proxies ∧ dict_find stateA.proxies pid = some q
      ∧ (get_proxy stateA (some "GB") false).1 = some q :=
  get_proxy_country_fallback stateA "GB" false (by decide) (by decide) (by decide)

theorem any_key_iff (d : List (String × Value)) (k : String) :
    d.any (fun kv => kv.1 = k) = true ↔ k ∈ d.map Prod.fst := by
  simp only [List.any_eq_true, List.mem_map, decide_eq_true_eq]

theorem dict_insert_keys (d : List (String × Value)) (k : String) (v : Value) :
    (dict_insert d k v).map Prod.fst =
      if k ∈ d.map Prod.fst then d.map Prod.fst else d.map Prod.fst ++ [k] := by
  simp only [dict_insert]
  by_cases h : k ∈ d.map Prod.fst
  · rw [if_pos ((any_key_iff d k).mpr h), if_pos h, List.map_map]
    refine List.map_congr_left (fun kv _ => ?_)
    by_cases h2 : kv.1 = k <;> simp [h2]
  · rw [if_neg (fun hc => h ((any_key_iff d k).mp hc)), if_neg h, List.map_append]
    rfl

theorem dict_insert_keys_nodup (d : List (String × Value)) (k : String) (v : Value)
    (h : (d.map Prod.fst).Nodup) : ((dict_insert d k v).map Prod.fst).Nodup := by
  rw [dict_insert_keys]
  split
  · exact h
  · next hn => simp [List.nodup_append, h, hn]

theorem dict_insert_keys_mem (d : List (String × Value)) (k : String) (v : Value) (a : String) :
    a ∈ (dict_insert d k v).map Prod.fst ↔ a = k ∨ a ∈ d.map Prod.fst := by
  rw [dict_insert_keys]
  split
  · next h =>
      constructor
      · exact Or.inr
      · rintro (rfl | h2)
        · exact h
        · exact h2
  · next h => simp [or_comm]

theorem lookup_map_overwrite (d : List (String × Value)) (k : String) (v : Value)
    (h : d.any (fun kv => kv.1 = k) = true) :
    lookup_value (d.map (fun kv => if kv.1 = k then (kv.1, v) else kv)) k = some v := by
  induction d with
  | nil => simp at h
  | cons kv rest ih =>
      by_cases h2 : kv.1 = k
      · simp [lookup_value, h2]
      · have h3 : rest.any (fun kv => kv.1 = k) = true := by
          simpa [List.any_cons, h2] using h
        simp only [List.map_cons, if_neg h2, lookup_value, List.find?_cons,
          decide_eq_false h2] at ih ⊢
        exact ih h3

theorem lookup_append_single (d : List (String × Value)) (k : String) (v : Value)
    (h : d.any (fun kv => kv.1 = k) = false) :
    lookup_value (d ++ [(k, v)]) k = some v := by
  induction d with
  | nil => simp [lookup_value]
  | cons kv rest ih =>
      have h1 : ¬ (kv.1 = k) := by
        intro hc
        rw [List.any_cons] at h
        simp [hc] at h
      have h2 : rest.any (fun kv => kv.1 = k) = false := by
        rw [List.any_cons] at h
        exact (Bool.or_eq_false_iff.mp h).2
      simp only [List.cons_append, lookup_value]
      rw [List.find?_cons_of_neg _ (by simpa using h1)]
      simpa [lookup_value] using ih h2

theorem lookup_dict_insert_self (d : List (String × Value)) (k : String) (v : Value) :
    lookup_value (dict_insert d k v) k = some v := by
  simp only [dict_insert]
  by_cases h : d.any (fun kv => kv.1 = k) = true
  · rw [if_pos h]
    exact lookup_map_overwrite d k v h
  · rw [if_neg h]
    exact lookup_append_single d k v (Bool.eq_false_iff.mpr h)

theorem lookup_map_other (d : List (String × Value)) (k : String) (v : Value)
    (a : String) (hne : a ≠ k) :
    lookup_value (d.map (fun kv => if kv.1 = k then (kv.1, v) else kv)) a = lookup_value d a := by
  induction d with
  | nil => rfl
  | cons kv rest ih =>
      by_cases hka : kv.1 = a
      · have h2 : ¬ (kv.1 = k) := fun hc => hne (hka ▸ hc)
        simp only [List.map_cons, if_neg h2, lookup_value]
        rw [List.find?_cons_of_pos _ (by simpa using hka),
            List.find?_cons_of_pos _ (by simpa using hka)]
      · by_cases h2 : kv.1 = k
        · simp only [List.map_cons, if_pos h2, lookup_value]
          rw [List.find?_cons_of_neg _ (by simpa using hka),
              List.find?_cons_of_neg _ (by simpa using hka)]
          simpa [lookup_value] using ih
        · simp only [List.map_cons, if_neg h2, lookup_value]
          rw [List.find?_cons_of_neg _ (by simpa using hka),
              List.find?_cons_of_neg _ (by simpa using hka)]
          simpa [lookup_value] using ih

theorem lookup_append_single_other (d : List (String × Value)) (k : String) (v : Value)
    (a : String) (hne : a ≠ k) :
    lookup_value (d ++ [(k, v)]) a = lookup_value d a := by
  induction d with
  | nil =>
      simp only [List.nil_append, lookup_value]
      rw [List.find?_cons_of_neg _ (by simpa using fun hc => hne hc.symm)]
  | cons kv rest ih =>
      by_cases hka : kv.1 = a
      · simp only [List.cons_append, lookup_value]
        rw [List.find?_cons_of_pos _ (by simpa using hka),
            List.find?_cons_of_pos _ (by simpa using hka)]
      · simp only [List.cons_append, lookup_value]
        rw [List.find?_cons_of_neg _ (by simpa using hka),
            List.find?_cons_of_neg _ (by simpa using hka)]
        simpa [lookup_value] using ih

theorem lookup_dict_insert_other (d : List (String × Value)) (k : String) (v : Value)
    (a : String) (hne : a ≠ k) :
    lookup_value (dict_insert d k v) a = lookup_value d a := by
  simp only [dict_insert]
  split
  · exact lookup_map_other d k v a hne
  · exact lookup_append_single_other d k v a hne

theorem extract_foldl_keys_mem (pg : Page) (fields : List FieldConfig)
    (acc : List (String × Value)) (a : String) :
    a ∈ ((fields.foldl (fun acc f => dict_insert acc f.name (extract_single_field pg f)) acc).map
        Prod.fst)
      ↔ a ∈ acc.map Prod.fst ∨ a ∈ fields.map FieldConfig.name := by
  induction fields generalizing acc with
  | nil => simp
  | cons f rest ih =>
      simp only [List.foldl_cons, List.map_cons, List.mem_cons]
      rw [ih, dict_insert_keys_mem]
      tauto

theorem extract_foldl_keys_nodup (pg : Page) (fields : List FieldConfig)
    (acc : List (String × Value)) (h : (acc.map Prod.fst).Nodup) :
    (((fields.foldl (fun acc f => dict_insert acc f.name (extract_single_field pg f)) acc)).map
        Prod.fst).Nodup := by
  induction fields generalizing acc with
  | nil => exact h
  | cons f rest ih => exact ih _ (dict_insert_keys_nodup _ _ _ h)

theorem extract_foldl_lookup_absent (pg : Page) (fields : List FieldConfig)
    (acc : List (String × Value)) (a : String) (h : a ∉ fields.map FieldConfig.name) :
    lookup_value
        (fields.foldl (fun acc f => dict_insert acc f.name (extract_single_field pg f)) acc) a =
      lookup_value acc a := by
  induction fields generalizing acc with
  | nil => rfl
  | cons f rest ih =>
      simp only [List.map_cons, List.mem_cons] at h
      push_neg at h
      rw [List.foldl_cons, ih _ h.2, lookup_dict_insert_other _ _ _ _ h.1]

theorem extract_foldl_lookup (pg : Page) (fields : List FieldConfig)
    (acc : List (String × Value)) (f : FieldConfig)
    (hnd : (fields.map FieldConfig.name).Nodup) (hf : f ∈ fields) :
    lookup_value
        (fields.foldl (fun acc f => dict_insert acc f.name (extract_single_field pg f)) acc)
        f.name = some (extract_single_field pg f) := by
  induction fields generalizing acc with
  | nil => simp at hf
  | cons g rest ih =>
      rw [List.map_cons] at hnd
      have hnd2 := List.nodup_cons.mp hnd
      rw [List.foldl_cons]
      rcases List.mem_cons.mp hf with rfl | hfr
      · rw [extract_foldl_lookup_absent _ _ _ _ hnd2.1, lookup_dict_insert_self]
      · exact ih _ hnd2.2 hfr

/-- Claim C8: a single-match field whose selector finds no element —
`required` or not — resolves to its configured `default_value` (null
when unset) in the extraction dictionary, and no field failure aborts
the others: every configured field keeps an entry.  (Field names are
unique, as guaranteed by configuration validation.) -/
theorem required_field_missing_fallback (pg : Page) (fields : List FieldConfig) (f : FieldConfig)
    (hnd : (fields.map FieldConfig.name).Nodup) (hf : f ∈ fields)
    (_hreq : f.required = true) (hmul : f.multiple = false)
    (hq : pg.query f.selector = Except.ok none) :
    lookup_value (extract_fields pg fields) f.name = some (opt_to_value f.default_value)
    ∧ ∀ g ∈ fields, g.name ∈ (extract_fields pg fields).map Prod.fst := by
  have hval : extract_single_field pg f = opt_to_value f.default_value := by
    simp only [extract_single_field, hmul, Bool.false_eq_true, if_false, hq]
    cases f.default_value <;> rfl
  constructor
  · have hl := extract_foldl_lookup pg fields [] f hnd hf
    rw [extract_fields, hl, hval]
  · intro g hg
    rw [extract_fields]
    exact (extract_foldl_keys_mem pg fields [] g.name).mpr
      (Or.inr (List.mem_map_of_mem _ hg))

/-- A page oracle on which every single query finds nothing and every
element-level primitive raises. -/
def pgEmpty : Page :=
  { query := fun _ => Except.ok none, query_all := fun _ => Except.ok [],
    inner_text := fun _ => Except.error "no element",
    get_attr := fun _ _ => Except.error "no element",
    abs_url := fun _ => Except.error "no page" }

/-- Witness for C8: a required text field over `pgEmpty` resolves to null. -/
theorem required_field_missing_fallback_witness :
    lookup_value (extract_fields pgEmpty
        [{ name := "title", type := FieldType.text, selector := "h1" }]) "title" =
      some (opt_to_value none) :=
  (required_field_missing_fallback pgEmpty
    [{ name := "title", type := FieldType.text, selector := "h1" }]
    { name := "title", type := FieldType.text, selector := "h1" }
    (by decide) (by simp) rfl rfl rfl).1

/-- Claim C10: the extraction dictionary has exactly one entry per
configured field name — its key set equals the set of declared names —
whatever the page oracle does: no field is ever omitted. -/
theorem extraction_covers_all_fields (pg : Page) (fields : List FieldConfig) :
    ((extract_fields pg fields).map Prod.fst).Nodup
    ∧ ∀ a, a ∈ (extract_fields pg fields).map Prod.fst ↔ a ∈ fields.map FieldConfig.name := by
  constructor
  · exact extract_foldl_keys_nodup pg fields [] (by simp)
  · intro a
    rw [extract_fields, extract_foldl_keys_mem]
    simp

/-- An attempt behaviour that immediately succeeds with no extracted pages. -/
def attempts_empty : Nat → AttemptResult :=
  fun _ => { pages := [], error := none }

/-- Claim C4: when the retry phase finishes without an escaping exception
but the aggregated per-page data list is empty, the task is finalized as
`failed` with a non-empty error list — an empty result is never reported
as success. -/
theorem empty_result_reported_failed (attempts : Nat → AttemptResult) (max_retries : Nat)
    (t : ℚ) (acc : RetryState)
    (hok : retry_run attempts max_retries = Except.ok acc) (hempty : acc.data = []) :
    (execute_task_core attempts max_retries t).status = "failed"
    ∧ (execute_task_core attempts max_retries t).errors ≠ [] := by
  simp [execute_task_core, hok, hempty]

/-- Witness for C4: one successful attempt with zero pages. -/
theorem empty_result_reported_failed_witness :
    (execute_task_core attempts_empty 0 1).status = "failed"
    ∧ (execute_task_core attempts_empty 0 1).errors ≠ [] :=
  empty_result_reported_failed attempts_empty 0 1
    { data := [], warnings := [], failed_reports := 0, success_reports := 1 } rfl rfl

/-- Claim C5: every execution whose retry phase completes is billed
`max(elapsed_minutes, 0.1)` compute units; in particular an execution of
under 6 seconds is billed exactly 0.1 and the billed amount is never 0. -/
theorem billing_minimum_floor (attempts : Nat → AttemptResult) (max_retries : Nat)
    (t : ℚ) (acc : RetryState)
    (hok : retry_run attempts max_retries = Except.ok acc) :
    (execute_task_core attempts max_retries t).compute_units_used = compute_units t
    ∧ (t < 6 → (execute_task_core attempts max_retries t).compute_units_used = 1 / 10)
    ∧ (execute_task_core attempts max_retries t).compute_units_used ≠ 0 := by
  have hcu : (execute_task_core attempts max_retries t).compute_units_used = compute_units t := by
    simp only [execute_task_core, hok]
    split <;> rfl
  refine ⟨hcu, ?_, ?_⟩
  · intro ht
    rw [hcu, compute_units, max_eq_right (by linarith : t / 60 ≤ (1 : ℚ) / 10)]
  · rw [hcu, compute_units]
    have hge : (1 : ℚ) / 10 ≤ max (t / 60) (1 / 10) := le_max_right _ _
    intro hc
    rw [hc] at hge
    linarith

/-- Witness for C5: a 1-second execution is billed 0.1 compute units. -/
theorem billing_minimum_floor_witness :
    ((1 : ℚ) < 6 → (execute_task_core attempts_empty 0 1).compute_units_used = 1 / 10)
    ∧ (execute_task_core attempts_empty 0 1).compute_units_used ≠ 0 :=
  (billing_minimum_floor attempts_empty 0 1
    { data := [], warnings := [], failed_reports := 0, success_reports := 1 } rfl).2

/-- The retry scenario of the spec: two retryable timeout failures, then
a successful attempt with one page of data. -/
def attemptsC : Nat → AttemptResult := fun k =>
  if k < 2 then
    { pages := [],
      error := some { message := "nav timeout", error_type := "timeout", retryable := true } }
  else { pages := [[("title", Value.vstr "x")]], error := none }

/-- Counterexample to claim C3 as stated: in the exact scenario
(`max_retries = 2`, two retryable timeout failures, third attempt
succeeds) the task completes with 2 retry warnings, but the proxy is
reported failed 0 times, not 2 — the retry loop calls
`mark_proxy_failed` only for `proxy_failure`-type errors, and a timeout
is not one. -/
theorem retry_timeout_counterexample :
    (execute_task_core attemptsC 2 1).status = "completed"
    ∧ (execute_task_core attemptsC 2 1).warnings.length = 2
    ∧ retry_failed_reports attemptsC 2 = 0
    ∧ retry_failed_reports attemptsC 2 ≠ 2 := by
  refine ⟨?_, ?_, ?_, ?_⟩ <;> decide

/-- Claim C3 amended: with `max_retries = 2`, two retryable timeout
failures and a third successful attempt with data, the final status is
`completed`, the warnings list holds exactly the 2 retry entries, and
the proxy is reported failed 0 times (not 2) and successful once. -/
theorem retry_timeout_scenario (attempts : Nat → AttemptResult) (m0 m1 : String)
    (pages1 : List PageData) (t : ℚ)
    (h0 : attempts 0 = { pages := [], error := some { message := m0, error_type := "timeout", retryable := true } })
    (h1 : attempts 1 = { pages := [], error := some { message := m1, error_type := "timeout", retryable := true } })
    (h2 : attempts 2 = { pages := pages1, error := none })
    (hne : pages1 ≠ []) :
    (execute_task_core attempts 2 t).status = "completed"
    ∧ (execute_task_core attempts 2 t).warnings = ["Retry 1: " ++ m0, "Retry 2: " ++ m1]
    ∧ retry_failed_reports attempts 2 = 0
    ∧ retry_success_reports attempts 2 = 1 := by
  have hr : retry_run attempts 2 = Except.ok
      { data := pages1, warnings := ["Retry 1: " ++ m0, "Retry 2: " ++ m1],
        failed_reports := 0, success_reports := 1 } := by
    rw [retry_run, retry_loop.eq_def]
    simp only [h0]
    rw [retry_loop.eq_def]
    simp only [h1]
    rw [retry_loop.eq_def]
    simp only [h2]
    simp
    exact ⟨rfl, rfl⟩
  have hne' : pages1.isEmpty = false := by
    cases pages1 with
    | nil => exact absurd rfl hne
    | cons a l => rfl
  refine ⟨?_, ?_, ?_, ?_⟩
  · simp [execute_task_core, hr, hne']
  · simp [execute_task_core, hr, hne']
  · simp [retry_failed_reports, hr]
  · simp [retry_success_reports, hr]

/-- Witness for the amended C3 at the concrete scenario `attemptsC`. -/
theorem retry_timeout_scenario_witness :
    (execute_task_core attemptsC 2 1).status = "completed"
    ∧ (execute_task_core attemptsC 2 1).warnings =
        ["Retry 1: " ++ "nav timeout", "Retry 2: " ++ "nav timeout"]
    ∧ retry_failed_reports attemptsC 2 = 0
    ∧ retry_success_reports attemptsC 2 = 1 :=
  retry_timeout_scenario attemptsC "nav timeout" "nav timeout"
    [[("title", Value.vstr "x")]] 1 rfl rfl rfl (by simp)

theorem scrape_loop_length_le (cfg : PaginationConfig) (env : Nat → PageView) :
    ∀ (k cp : Nat), cfg.max_pages - cp ≤ k →
      (scrape_loop cfg env cp).length ≤ cfg.max_pages - cp + 1 := by
  intro k
  induction k with
  | zero =>
      intro cp hk
      have hnn : ¬ (has_next_page cfg cp (env cp) = true) := by
        intro hh
        have := has_next_page_lt cfg cp (env cp) hh
        omega
      rw [scrape_loop, dif_neg hnn]
      simp
  | succ n ih =>
      intro cp hk
      rw [scrape_loop]
      by_cases hh : has_next_page cfg cp (env cp) = true
      · rw [dif_pos hh]
        by_cases hg : go_to_next_page cfg cp (env cp) = true
        · rw [if_pos hg]
          have hlt := has_next_page_lt cfg cp (env cp) hh
          have hrec := ih (cp + 1) (by omega)
          simp only [List.length_cons]
          omega
        · rw [if_neg hg]
          simp only [List.length_singleton]
          omega
      · rw [dif_neg hh]
        simp only [List.length_singleton]
        omega

/-- Pagination configuration of the spec's scenario with a stop-condition
selector configured. -/
def cfgC : PaginationConfig :=
  { enabled := true, next_selector := some "a", max_pages := 3, stop_condition := some "end" }

/-- A page sequence on which every selector matches, the next element is
enabled and visible, and navigation always succeeds. -/
def envC : Nat → PageView := fun _ =>
  { find := fun _ => true, disabled := fun _ => false, visible := fun _ => true,
    nav_ok := true, page_data := [] }

/-- Counterexample to claim C6 as stated: with `enabled=true`,
`max_pages=3`, a next element that is always present, enabled and
visible, and navigation that always succeeds, a matching stop-condition
selector stops the loop after 1 page, not 3 — the page count is not
independent of the stop-condition selector. -/
theorem pagination_stop_counterexample :
    (envC 1).find "a" = true ∧ (envC 1).disabled "a" = false ∧ (envC 1).visible "a" = true
    ∧ (envC 1).nav_ok = true ∧ cfgC.enabled = true ∧ cfgC.max_pages = 3
    ∧ (scrape_pages cfgC envC).length = 1 := by
  refine ⟨rfl, rfl, rfl, rfl, rfl, rfl, ?_⟩
  rw [scrape_pages, scrape_loop]
  simp [has_next_page, cfgC, envC, opt_truthy]

/-- Claim C6 amended: with `enabled=true`, `max_pages=3`, a next element
that is always present, enabled and visible, navigation that always
succeeds, and a stop-condition selector that matches nothing, exactly 3
pages are scraped; and in every environment the number of pages scraped
in one attempt never exceeds `max_pages`. -/
theorem pagination_max_pages_bound (cfg : PaginationConfig) (env : Nat → PageView) (ns : String)
    (hen : cfg.enabled = true) (hmp : cfg.max_pages = 3)
    (hns : cfg.next_selector = some ns) (hnse : ns ≠ "")
    (hfind : ∀ n, (env n).find ns = true)
    (hdis : ∀ n, (env n).disabled ns = false)
    (hvis : ∀ n, (env n).visible ns = true)
    (hnav : ∀ n, (env n).nav_ok = true)
    (hstop : ∀ n s, cfg.stop_condition = some s → (env n).find s = false) :
    (scrape_pages cfg env).length = 3
    ∧ ∀ (cfg2 : PaginationConfig) (env2 : Nat → PageView),
        1 ≤ cfg2.max_pages → (scrape_pages cfg2 env2).length ≤ cfg2.max_pages := by
  constructor
  · have hn : ∀ n, n < 3 → has_next_page cfg n (env n) = true := by
      intro n hlt
      have h3 : ¬ (3 ≤ n) := by omega
      cases hsc : cfg.stop_condition with
      | none =>
          simp [has_next_page, hen, hmp, hns, hsc, opt_truthy, hfind n, hdis n, hvis n,
            hnse, h3]
      | some s =>
          simp [has_next_page, hen, hmp, hns, hsc, opt_truthy, hfind n, hdis n, hvis n,
            hnse, h3, hstop n s hsc]
    have hg : ∀ n, n < 3 → go_to_next_page cfg n (env n) = true := by
      intro n hlt
      rw [go_to_next_page, hn n hlt]
      simp [hns, hfind n, hnav n]
    have h12 : ¬ (has_next_page cfg 3 (env 3) = true) := by
      intro hh
      have := has_next_page_lt cfg 3 (env 3) hh
      rw [hmp] at this
      omega
    rw [scrape_pages, scrape_loop, dif_pos (hn 1 (by omega)), if_pos (hg 1 (by omega)),
        scrape_loop, dif_pos (hn 2 (by omega)), if_pos (hg 2 (by omega)),
        scrape_loop, dif_neg h12]
    simp
  · intro cfg2 env2 h1
    have hb := scrape_loop_length_le cfg2 env2 cfg2.max_pages 1 (by omega)
    rw [scrape_pages]
    omega

/-- Pagination configuration of the scenario without a stop condition. -/
def cfgW : PaginationConfig :=
  { enabled := true, next_selector := some "a", max_pages := 3 }

/-- Witness for the amended C6: 3 pages exactly on `envC` without a stop
condition. -/
theorem pagination_max_pages_bound_witness :
    (scrape_pages cfgW envC).length = 3 :=
  (pagination_max_pages_bound cfgW envC "a" rfl rfl rfl (by decide)
    (fun _ => rfl) (fun _ => rfl) (fun _ => rfl) (fun _ => rfl)
    (fun n s h => by simp [cfgW] at h)).1

/-- Claim C7, evaluated at the failing inputs: pydantic validators
declared without `always=True` are skipped when the field's key is
absent from the input dictionary, so (i) a pagination input with
`enabled=true` and no `next_selector` key validates successfully with
`next_selector = None`, although the validator's own error message says
this must fail, and (ii) a link field without an `attribute` key
validates with `attribute = None` rather than the documented `href`
default, contradicting the repository's own
`test_field_type_validation` test; with the key supplied explicitly as
`None` both validators do run as the claim describes, and field-name
uniqueness holds: duplicate names are rejected. -/
theorem validator_skipped_when_key_absent :
    mk_pagination_config { enabled := some true } =
      Except.ok { enabled := true, next_selector := none, max_pages := 10, wait_after_click := 2000, stop_condition := none }
    ∧ mk_field_config { name := "link", type := FieldType.link, selector := "a" } =
      Except.ok { name := "link", type := FieldType.link, selector := "a", attr := none, multiple := false, required := true, default_value := none }
    ∧ mk_pagination_config { enabled := some true, next_selector := some none } =
      Except.error "next_selector is required when pagination is enabled"
    ∧ mk_field_config { name := "link", type := FieldType.link, selector := "a", attr := some none } =
      Except.ok { name := "link", type := FieldType.link, selector := "a", attr := some "href", multiple := false, required := true, default_value := none }
    ∧ validated_fields [{ name := "a", type := FieldType.text, selector := "s" }, { name := "a", type := FieldType.text, selector := "s2" }] =
      Except.error "Field names must be unique" :=
  ⟨rfl, rfl, rfl, rfl, rfl⟩

end Selextract
